import Mathlib

/-!
Verification development for the Auto-Focus-Mode repository.

The definitions below are a shallow embedding of the Python code in
`src/gui/controller.py` (classes `GuiLogStream` and `FocusController`) and
`src/modules/policy_engine.py` (`check_app_category`).  Text is modelled as
`List Char`, timestamps and durations as `Int` (the code divides the duration
by 60.0 to turn seconds into minutes; the division preserves the sign and the
order, so we keep the raw time difference), Python exceptions as `Except`
values, and externally visible side effects (writes to the original stream,
cancellation signals, website unblocking, ...) as explicit traces.
-/

namespace AutoFocus

/-! ## Log Relay: `GuiLogStream` (controller.py lines 33-64)

`write` forwards the message to the original stream, flushes it, appends the
message to the internal buffer, and then repeatedly splits the buffer at the
first newline, enqueueing each complete line with its trailing carriage
returns removed (`line.rstrip("\r")`). -/

/-- Python's `line.rstrip("\r")`: remove every trailing `'\r'`. -/
def rstripCR (l : List Char) : List Char :=
  (l.reverse.dropWhile (fun c => c = '\r')).reverse

/-- The `while "\n" in self._buffer` loop of `GuiLogStream.write`:
`cur` is the (reversed) portion of the current line read so far; the result is
the list of enqueued lines (in order) and the remaining buffer. -/
def drainAux (cur : List Char) : List Char → List (List Char) × List Char
  | [] => ([], cur.reverse)
  | c :: cs =>
    if c = '\n' then
      let r := drainAux [] cs
      (rstripCR cur.reverse :: r.1, r.2)
    else
      drainAux (c :: cur) cs

/-- State of one `GuiLogStream` together with its observable surroundings:
the internal line buffer, the writes forwarded to the original stream, the
number of flushes of the original stream, and the shared message queue
(oldest first). -/
structure RelayState where
  stream_name : String
  buffer : List Char
  sinkWrites : List (List Char)
  sinkFlushes : Nat
  queue : List (String × List Char)
  deriving DecidableEq

/-- `GuiLogStream.write` (controller.py lines 44-57). Returns the Python
return value (`len(message)`, with `0` for the empty early-return) and the
new state. -/
def GuiLogStream.write (s : RelayState) (message : List Char) :
    Nat × RelayState :=
  if message = [] then (0, s)
  else
    let drained := drainAux [] (s.buffer ++ message)
    (message.length,
      { s with
        buffer := drained.2
        sinkWrites := s.sinkWrites ++ [message]
        sinkFlushes := s.sinkFlushes + 1
        queue := s.queue ++ drained.1.map (fun l => (s.stream_name, l)) })

/-- `GuiLogStream.flush` (controller.py lines 59-64): flush the original
stream; if the buffer is non-empty enqueue it (trailing `'\r'` stripped) as
one line and clear it. -/
def GuiLogStream.flush (s : RelayState) : RelayState :=
  if s.buffer = [] then { s with sinkFlushes := s.sinkFlushes + 1 }
  else
    { s with
      sinkFlushes := s.sinkFlushes + 1
      buffer := []
      queue := s.queue ++ [(s.stream_name, rstripCR s.buffer)] }

/-! The loop of `write` is characterised against `List.splitOn '\n'`:
the complete newline-terminated segments are all parts but the last, and the
last part is the new buffer. -/

theorem drainAux_cons_newline (cur cs : List Char) :
    drainAux cur ('\n' :: cs) =
      (rstripCR cur.reverse :: (drainAux [] cs).1, (drainAux [] cs).2) := by
  simp [drainAux]

theorem drainAux_cons_other (cur : List Char) {c : Char} (cs : List Char)
    (h : ¬c = '\n') : drainAux cur (c :: cs) = drainAux (c :: cur) cs := by
  simp [drainAux, h]

theorem dropLast_cons_ne_nil {α : Type} (a : α) {l : List α} (h : l ≠ []) :
    (a :: l).dropLast = a :: l.dropLast := by
  cases l with
  | nil => exact absurd rfl h
  | cons b bs => rfl

theorem getLastD_cons_ne_nil {α : Type} (a d : α) {l : List α} (h : l ≠ []) :
    (a :: l).getLastD d = l.getLastD d := by
  cases l with
  | nil => exact absurd rfl h
  | cons b bs => rfl

theorem drainAux_splitOn (l : List Char) :
    ∀ cur : List Char, '\n' ∉ cur →
      drainAux cur l =
        (((cur.reverse ++ l).splitOn '\n').dropLast.map rstripCR,
          ((cur.reverse ++ l).splitOn '\n').getLastD []) := by
  induction l with
  | nil =>
    intro cur hcur
    have hsingle : (cur.reverse ++ []).splitOn '\n' = [cur.reverse] := by
      rw [List.append_nil]
      refine List.splitOnP_eq_single _ _ ?_
      intro x hx
      simp only [beq_iff_eq]
      intro h
      exact hcur (h ▸ (List.mem_reverse.mp hx))
    show ([], cur.reverse) = _
    rw [hsingle]
    rfl
  | cons c cs ih =>
    intro cur hcur
    by_cases hc : c = '\n'
    · subst hc
      have hfirst : (cur.reverse ++ '\n' :: cs).splitOn '\n' =
          cur.reverse :: cs.splitOn '\n' := by
        refine List.splitOnP_first _ _ ?_ '\n' (by simp) cs
        intro x hx
        simp only [beq_iff_eq]
        intro h
        exact hcur (h ▸ (List.mem_reverse.mp hx))
      have hne : cs.splitOn '\n' ≠ [] := List.splitOnP_ne_nil _ cs
      have ihcs := ih [] (by simp)
      rw [drainAux_cons_newline, ihcs, hfirst,
        dropLast_cons_ne_nil _ hne, getLastD_cons_ne_nil _ _ hne,
        List.map_cons]
      rfl
    · have hcur' : '\n' ∉ c :: cur := by
        intro h
        rcases List.mem_cons.mp h with h | h
        · exact hc h.symm
        · exact hcur h
      rw [drainAux_cons_other cur cs hc, ih (c :: cur) hcur']
      simp only [List.reverse_cons, List.append_assoc, List.cons_append,
        List.nil_append]

/-- C4: every non-empty `GuiLogStream.write` call forwards the raw text
unchanged to the original sink and flushes it immediately, accumulates the
text in the internal buffer, and enqueues every complete newline-terminated
segment (trailing carriage returns stripped) as `(origin, line)` in order;
the queue is only appended to, so lines appear in write order.  The complete
segments of `buffer ++ message` are all parts of `splitOn '\n'` except the
last, and the last part becomes the new buffer. -/
theorem c4_log_relay_write (s : RelayState) (msg : List Char) (h : msg ≠ []) :
    (GuiLogStream.write s msg).1 = msg.length ∧
    (GuiLogStream.write s msg).2.sinkWrites = s.sinkWrites ++ [msg] ∧
    (GuiLogStream.write s msg).2.sinkFlushes = s.sinkFlushes + 1 ∧
    (GuiLogStream.write s msg).2.queue =
      s.queue ++ ((s.buffer ++ msg).splitOn '\n').dropLast.map
        (fun l => (s.stream_name, rstripCR l)) ∧
    (GuiLogStream.write s msg).2.buffer =
      ((s.buffer ++ msg).splitOn '\n').getLastD [] ∧
    (GuiLogStream.write s msg).2.stream_name = s.stream_name := by
  have hd := drainAux_splitOn (s.buffer ++ msg) [] (by simp)
  simp only [List.reverse_nil, List.nil_append] at hd
  unfold GuiLogStream.write
  rw [if_neg h]
  refine ⟨rfl, rfl, rfl, ?_, ?_, rfl⟩
  · show s.queue ++ (drainAux [] (s.buffer ++ msg)).1.map _ = _
    rw [hd, List.map_map]
    rfl
  · show (drainAux [] (s.buffer ++ msg)).2 = _
    rw [hd]

theorem c4_log_relay_write_witness :
    (GuiLogStream.write ⟨"stdout", ['a'], [], 0, []⟩
        ['b', '\r', '\n', 'c', '\n', 'd']).2.queue =
      [("stdout", ['a', 'b']), ("stdout", ['c'])] ∧
    (GuiLogStream.write ⟨"stdout", ['a'], [], 0, []⟩
        ['b', '\r', '\n', 'c', '\n', 'd']).2.buffer = ['d'] := by
  have h := c4_log_relay_write ⟨"stdout", ['a'], [], 0, []⟩
    ['b', '\r', '\n', 'c', '\n', 'd'] (by decide)
  exact ⟨by rw [h.2.2.2.1]; decide, by rw [h.2.2.2.2.1]; decide⟩

/-! ## Task Lifecycle Controller: `FocusController` (controller.py lines 67-206)

The controller state mirrors the Python instance attributes.  `has_thread`
models `daemon_thread is not None`; `has_loop_task` models
`daemon_loop and daemon_task` being both set (they are assigned and reset by
the background thread, so from the caller's point of view they change
nondeterministically while a run is in progress).  Python exceptions at the
points where the real code can realistically raise are injected through
environment records (`StartEnv`, `StopEnv`); a raised exception is an
`Except.error` carrying the message and the mutated state reached so far.
Externally visible side effects are recorded as a trace of `Action`s. -/

/-- One observable side effect of a controller call. -/
inductive Action where
  | clearStopEvent
  | drainLogQueue
  | launchDaemonThread
  | setStopEvent
  | signalCancel
  | unblockWebsites
  | applyPoliciesProductive
  | joinThread
  | logMsg (s : String)
  deriving DecidableEq

/-- The mutable attributes of `FocusController`. -/
structure Controller where
  is_running : Bool
  current_status : String
  has_thread : Bool
  has_loop_task : Bool
  stop_event : Bool
  log_queue : List (String × List Char)
  deriving DecidableEq

/-- `FocusController.__init__` (controller.py lines 73-81). -/
def initController : Controller :=
  { is_running := false
    current_status := "Idle"
    has_thread := false
    has_loop_task := false
    stop_event := false
    log_queue := [] }

/-- A Python exception value (only the message matters for the model). -/
structure PyExn where
  msg : String
  deriving DecidableEq

/-- Exception injection points for `start_focus`: `launchThrows` models
`threading.Thread(...)`/`thread.start()` raising inside the `try` block. -/
structure StartEnv where
  launchThrows : Bool

/-- Exception injection points and environment for `stop_focus`:
`setEventThrows` models an uncaught exception at the top of the `try` block
(before any state change); `cancelThrows` models
`call_soon_threadsafe` raising (caught by the inner handler at line 171);
`unblockThrows`/`applyThrows` model `unblock_websites()` /
`apply_focus_policies("productive")` raising (caught by the inner handler at
line 178); `joinThrows` models the bounded `thread.join` raising (uncaught,
after the state was already set to Idle); `threadAlive` models
`daemon_thread.is_alive()`. -/
structure StopEnv where
  setEventThrows : Bool
  cancelThrows : Bool
  unblockThrows : Bool
  applyThrows : Bool
  joinThrows : Bool
  threadAlive : Bool

/-- The body of the `try` block of `start_focus` (controller.py lines
100-147).  On an exception the error carries the state mutated so far. -/
def start_body (c : Controller) (env : StartEnv) :
    Except (PyExn × Controller × List Action) (Bool × Controller × List Action) :=
  let c1 := { c with stop_event := false, log_queue := [] }
  let acts := [Action.clearStopEvent, Action.drainLogQueue]
  if env.launchThrows then
    .error (⟨"launch failed"⟩, c1, acts)
  else
    .ok (true,
      { c1 with has_thread := true, is_running := true,
                current_status := "Focus Active" },
      acts ++ [Action.launchDaemonThread])

/-- `FocusController.start_focus` (controller.py lines 90-150) as the caller
sees it: the result is the returned boolean, the state after the call and the
trace of side effects; an `Except.error` result would mean an exception
propagated to the caller. -/
def start_focus (c : Controller) (env : StartEnv) :
    Except PyExn (Bool × Controller × List Action) :=
  if c.is_running then .ok (false, c, [])
  else
    match start_body c env with
    | .ok r => .ok r
    | .error (e, c', as) =>
        .ok (false, c',
          as ++ [Action.logMsg ("[GUI] Failed to start focus mode: " ++ e.msg)])

/-- The cleanup block of `stop_focus` (controller.py lines 174-179): its own
`try/except` prints a warning instead of propagating. -/
def cleanup_actions (env : StopEnv) : List Action :=
  if env.unblockThrows then
    [Action.logMsg "[GUI] Warning: Error during cleanup"]
  else if env.applyThrows then
    [Action.unblockWebsites, Action.logMsg "[GUI] Warning: Error during cleanup"]
  else
    [Action.unblockWebsites, Action.applyPoliciesProductive]

/-- The body of the `try` block of `stop_focus` (controller.py lines
162-188). -/
def stop_body (c : Controller) (env : StopEnv) :
    Except (PyExn × Controller × List Action) (Bool × Controller × List Action) :=
  if env.setEventThrows then .error (⟨"set failed"⟩, c, [])
  else
    let c1 := { c with stop_event := true }
    let a2 := [Action.setStopEvent] ++
      (if c1.has_loop_task then
        (if env.cancelThrows then [Action.logMsg "[GUI] Error cancelling task"]
         else [Action.signalCancel])
       else [])
    let a3 := a2 ++ cleanup_actions env
    let c2 := { c1 with is_running := false, current_status := "Idle" }
    if c2.has_thread ∧ env.threadAlive then
      if env.joinThrows then .error (⟨"join failed"⟩, c2, a3)
      else .ok (true, c2, a3 ++ [Action.joinThread])
    else .ok (true, c2, a3)

/-- `FocusController.stop_focus` (controller.py lines 152-193): the outer
`except` (lines 189-193) logs, forces `is_running = False` and
`current_status = "Idle"`, and returns `False`. -/
def stop_focus (c : Controller) (env : StopEnv) :
    Except PyExn (Bool × Controller × List Action) :=
  if !c.is_running then .ok (false, c, [])
  else
    match stop_body c env with
    | .ok r => .ok r
    | .error (e, c', as) =>
        .ok (false, { c' with is_running := false, current_status := "Idle" },
          as ++ [Action.logMsg ("[GUI] Failed to stop focus mode: " ++ e.msg)])

/-- `FocusController.get_status` (controller.py lines 195-202). -/
def get_status (c : Controller) : String :=
  c.current_status

/-- Controller states reachable from construction through caller-side calls
(`start_focus`, `stop_focus`) and the background thread's own mutations
(`run_daemon` assigns/clears the loop and task handles and the relays append
to the log queue, but it never touches `is_running` or `current_status`). -/
inductive Reachable : Controller → Prop where
  | init : Reachable initController
  | start {c env b c' as} : Reachable c →
      start_focus c env = .ok (b, c', as) → Reachable c'
  | stop {c env b c' as} : Reachable c →
      stop_focus c env = .ok (b, c', as) → Reachable c'
  | daemon {c} (hl ht : Bool) (q : List (String × List Char)) : Reachable c →
      Reachable { c with has_loop_task := hl, has_thread := ht, log_queue := q }

/-- A successful `start_focus` leaves the controller with `is_running = true`. -/
theorem start_focus_ok_running {c : Controller} {env : StartEnv} {c' : Controller}
    {as : List Action} (h : start_focus c env = .ok (true, c', as)) :
    c'.is_running = true := by
  unfold start_focus at h
  by_cases hr : c.is_running
  · rw [if_pos hr] at h
    cases h
  · rw [if_neg hr] at h
    unfold start_body at h
    by_cases hl : env.launchThrows
    · rw [if_pos hl] at h
      cases h
    · rw [if_neg hl] at h
      cases h
      rfl

/-- C2: a `start()` call issued while the controller is already Running
returns `False` and leaves the controller state completely unchanged (the
returned state is the input state itself, and no side effect is performed);
in particular this holds immediately after a successful `start()`, which
leaves `is_running = true`. -/
theorem c2_start_while_running :
    (∀ (c : Controller) (env : StartEnv), c.is_running = true →
      start_focus c env = .ok (false, c, [])) ∧
    (∀ (c : Controller) (env1 env2 : StartEnv) (c1 : Controller)
        (as1 : List Action), start_focus c env1 = .ok (true, c1, as1) →
      start_focus c1 env2 = .ok (false, c1, [])) := by
  constructor
  · intro c env h
    unfold start_focus
    rw [if_pos h]
  · intro c env1 env2 c1 as1 h
    unfold start_focus
    rw [if_pos (start_focus_ok_running h)]

theorem c2_start_while_running_witness :
    start_focus { initController with is_running := true } ⟨false⟩ =
      .ok (false, { initController with is_running := true }, []) :=
  c2_start_while_running.1 { initController with is_running := true } ⟨false⟩ rfl

/-- C5: neither `start_focus` nor `stop_focus` ever propagates an exception
to its caller: for every state and every injection of exceptions at the
realistic raise points, both calls produce an `Except.ok` boolean result
(the handled branches also emit a `logMsg` diagnostic into the trace). -/
theorem c5_no_exception_escapes (c : Controller) (envT : StartEnv)
    (envS : StopEnv) :
    (∃ r, start_focus c envT = .ok r) ∧ (∃ r, stop_focus c envS = .ok r) := by
  constructor
  · unfold start_focus
    split
    · exact ⟨_, rfl⟩
    · split
      · exact ⟨_, rfl⟩
      · exact ⟨_, rfl⟩
  · unfold stop_focus
    split
    · exact ⟨_, rfl⟩
    · split
      · exact ⟨_, rfl⟩
      · exact ⟨_, rfl⟩

/-- C6: (a) when `stop()` runs while Running and the cancellation signal
raises, the inner handler swallows the error; the cleanup (unblock websites
and restore the productive policy) still executes and `stop()` returns
`True`.  (b) in the scenario start → immediate cancellation (the background
thread has already torn down its loop and task and exited) → stop, the
cleanup actions appear exactly once in the combined side-effect trace. -/
theorem c6_cleanup_executes :
    (∀ (c : Controller) (env : StopEnv), c.is_running = true →
      c.has_loop_task = true → c.has_thread = true →
      env.setEventThrows = false → env.cancelThrows = true →
      env.unblockThrows = false → env.applyThrows = false →
      env.joinThrows = false → env.threadAlive = true →
      stop_focus c env = .ok (true,
        { c with stop_event := true, is_running := false,
                 current_status := "Idle" },
        [Action.setStopEvent, Action.logMsg "[GUI] Error cancelling task",
         Action.unblockWebsites, Action.applyPoliciesProductive,
         Action.joinThread])) ∧
    (∀ (c0 : Controller) (envT : StartEnv) (envS : StopEnv),
      c0.is_running = false → envT.launchThrows = false →
      envS.setEventThrows = false → envS.unblockThrows = false →
      envS.applyThrows = false → envS.joinThrows = false →
      envS.threadAlive = false →
      ∀ (c1 : Controller) (as1 : List Action),
        start_focus c0 envT = .ok (true, c1, as1) →
        ∀ (b2 : Bool) (c2 : Controller) (as2 : List Action),
          stop_focus { c1 with has_loop_task := false } envS =
            .ok (b2, c2, as2) →
          b2 = true ∧
          (as1 ++ as2).count Action.unblockWebsites = 1 ∧
          (as1 ++ as2).count Action.applyPoliciesProductive = 1) := by
  constructor
  · intro c env hrun hlt hht hse hct hub hap hjt hta
    unfold stop_focus stop_body cleanup_actions
    rw [hrun]
    simp [hse, hct, hub, hap, hjt, hta, hlt, hht]
  · intro c0 envT envS h0 hl hse hub hap hjt hta c1 as1 hstart b2 c2 as2 hstop
    unfold start_focus start_body at hstart
    rw [if_neg (by simp [h0]), if_neg (by simp [hl])] at hstart
    cases hstart
    unfold stop_focus stop_body cleanup_actions at hstop
    simp [hse, hub, hap, hjt, hta] at hstop
    obtain ⟨hb, _, has2⟩ := hstop
    subst has2
    refine ⟨hb, by decide, by decide⟩

theorem c6_cleanup_executes_witness :
    stop_focus
        { is_running := true, current_status := "Focus Active",
          has_thread := true, has_loop_task := true, stop_event := false,
          log_queue := [] }
        ⟨false, true, false, false, false, true⟩ =
      .ok (true,
        { is_running := false, current_status := "Idle", has_thread := true,
          has_loop_task := true, stop_event := true, log_queue := [] },
        [Action.setStopEvent, Action.logMsg "[GUI] Error cancelling task",
         Action.unblockWebsites, Action.applyPoliciesProductive,
         Action.joinThread]) :=
  c6_cleanup_executes.1
    { is_running := true, current_status := "Focus Active",
      has_thread := true, has_loop_task := true, stop_event := false,
      log_queue := [] }
    ⟨false, true, false, false, false, true⟩
    rfl rfl rfl rfl rfl rfl rfl rfl rfl

/-- `start_focus` either keeps the status or sets it to `"Focus Active"`. -/
theorem start_focus_status {c : Controller} {env : StartEnv} {b : Bool}
    {c' : Controller} {as : List Action}
    (h : start_focus c env = .ok (b, c', as)) :
    c'.current_status = c.current_status ∨
    c'.current_status = "Focus Active" := by
  unfold start_focus start_body at h
  by_cases hr : c.is_running
  · rw [if_pos hr] at h
    cases h
    exact Or.inl rfl
  · rw [if_neg hr] at h
    by_cases hl : env.launchThrows
    · rw [if_pos hl] at h
      cases h
      exact Or.inl rfl
    · rw [if_neg hl] at h
      cases h
      exact Or.inr rfl

/-- `stop_focus` either keeps the status or sets it to `"Idle"`. -/
theorem stop_focus_status {c : Controller} {env : StopEnv} {b : Bool}
    {c' : Controller} {as : List Action}
    (h : stop_focus c env = .ok (b, c', as)) :
    c'.current_status = c.current_status ∨ c'.current_status = "Idle" := by
  by_cases hr : c.is_running = true
  · by_cases hse : env.setEventThrows = true
    · simp [stop_focus, stop_body, hr, hse] at h
      obtain ⟨-, hc, -⟩ := h
      subst hc
      exact Or.inr rfl
    · by_cases hj : c.has_thread = true ∧ env.threadAlive = true
      · by_cases hjt : env.joinThrows = true
        · simp [stop_focus, stop_body, cleanup_actions, hr, hse, hj, hjt] at h
          obtain ⟨-, hc, -⟩ := h
          subst hc
          exact Or.inr rfl
        · simp [stop_focus, stop_body, cleanup_actions, hr, hse, hj, hjt] at h
          obtain ⟨-, hc, -⟩ := h
          subst hc
          exact Or.inr rfl
      · simp [stop_focus, stop_body, cleanup_actions, hr, hse, hj] at h
        obtain ⟨-, hc, -⟩ := h
        subst hc
        exact Or.inr rfl
  · have hf : c.is_running = false := by simpa using hr
    simp [stop_focus, hf] at h
    obtain ⟨-, hc, -⟩ := h
    subst hc
    exact Or.inl rfl

/-- C7: for every reachable controller state, `get_status` returns exactly
one of the two values `"Idle"` and `"Focus Active"` (the code's renderings of
the spec's Idle and Running), and nothing else; the value reflects the
last-known transition because only `start_focus`/`stop_focus` write it. -/
theorem c7_status_two_valued (c : Controller) (h : Reachable c) :
    get_status c = "Idle" ∨ get_status c = "Focus Active" := by
  induction h with
  | init => exact Or.inl rfl
  | start _ heq ih =>
    rcases start_focus_status heq with hs | hs
    · rw [get_status, hs]
      exact ih
    · exact Or.inr hs
  | stop _ heq ih =>
    rcases stop_focus_status heq with hs | hs
    · rw [get_status, hs]
      exact ih
    · exact Or.inl hs
  | daemon hl ht q _ ih => exact ih

theorem c7_status_two_valued_witness :
    get_status initController = "Idle" ∨
    get_status initController = "Focus Active" :=
  c7_status_two_valued initController Reachable.init

/-- C10: when `stop()` is called while Running and its body raises an
exception that reaches the outer handler, `stop()` returns `False` but the
state nonetheless transitions to Idle: the handler forces
`is_running = False` and `current_status = "Idle"` before returning. -/
theorem c10_stop_failure_transitions_idle (c : Controller) (env : StopEnv)
    (e : PyExn × Controller × List Action) (hrun : c.is_running = true)
    (herr : stop_body c env = .error e) :
    stop_focus c env = .ok (false,
      { e.2.1 with is_running := false, current_status := "Idle" },
      e.2.2 ++ [Action.logMsg ("[GUI] Failed to stop focus mode: " ++ e.1.msg)]) ∧
    ({ e.2.1 with is_running := false, current_status := "Idle" }
      : Controller).is_running = false ∧
    ({ e.2.1 with is_running := false, current_status := "Idle" }
      : Controller).current_status = "Idle" := by
  refine ⟨?_, rfl, rfl⟩
  unfold stop_focus
  rw [if_neg (by simp [hrun]), herr]

theorem c10_stop_failure_transitions_idle_witness :
    stop_focus
        { is_running := true, current_status := "Focus Active",
          has_thread := true, has_loop_task := true, stop_event := false,
          log_queue := [] }
        ⟨true, false, false, false, false, false⟩ =
      .ok (false,
        { is_running := false, current_status := "Idle", has_thread := true,
          has_loop_task := true, stop_event := false, log_queue := [] },
        [Action.logMsg ("[GUI] Failed to stop focus mode: " ++ "set failed")]) :=
  (c10_stop_failure_transitions_idle
    { is_running := true, current_status := "Focus Active",
      has_thread := true, has_loop_task := true, stop_event := false,
      log_queue := [] }
    ⟨true, false, false, false, false, false⟩
    (⟨"set failed"⟩,
      { is_running := true, current_status := "Focus Active",
        has_thread := true, has_loop_task := true, stop_event := false,
        log_queue := [] }, [])
    rfl rfl).1

/-! ## Status/Session Query Facade: `get_recent_sessions`
(controller.py lines 208-294)

The SQLite layer is modelled by `Db`: each field is the outcome of the
corresponding access (`sqlite3.connect`, the `focus_log` query, the
`focus_sessions` query).  The `ORDER BY timestamp DESC LIMIT ?` clause is
executed by SQLite, so the query fields already hold the (supposedly
timestamp-descending, limited) row list.  `Row.timestamp` is the parsed
timestamp: `none` models a string for which `datetime.strptime` raises
`ValueError`.  The code reports durations in minutes
(`total_seconds() / 60.0`); the model keeps the raw time difference, which
has the same sign and ordering. -/

/-- A Python exception from the sqlite layer: `operational b` is an
`sqlite3.OperationalError` (`b` records whether its message is of the
"no such table" class); `other` is any other exception. -/
inductive SqlErr where
  | operational (noSuchTable : Bool)
  | other (msg : String)
  deriving DecidableEq

def SqlErr.isOperational : SqlErr → Bool
  | .operational _ => true
  | .other _ => false

/-- One row of the `focus_log` / `focus_sessions` table as fetched:
`(app_name, mode-or-category, parsed timestamp)`. -/
structure Row where
  app_name : String
  mode : String
  timestamp : Option Int
  deriving DecidableEq

/-- Outcomes of the three sqlite accesses made by `get_recent_sessions`. -/
structure Db where
  connect : Except SqlErr Unit
  focus_log : Except SqlErr (List Row)
  focus_sessions : Except SqlErr (List Row)

/-- The per-row duration computation of `get_recent_sessions` (controller.py
lines 239-252): `prev = none` is the most recent row (`i == 0`, duration
`now - t`); `prev = some pts` carries the previous (next-newer) row's parsed
timestamp; a `ValueError` from parsing either timestamp is handled by
appending the row with duration `0.0`; a non-positive duration yields no
appended row at all. -/
def durationOf (now : Int) (prev : Option (Option Int)) (ts : Option Int) :
    Option Int :=
  match ts with
  | none => some 0
  | some st =>
    match prev with
    | none => if 0 < now - st then some (now - st) else none
    | some none => some 0
    | some (some nt) => if 0 < nt - st then some (nt - st) else none

/-- The row loop of `get_recent_sessions`: build the `sessions` list. -/
def processRows (now : Int) :
    Option (Option Int) → List Row → List (String × String × Int)
  | _, [] => []
  | prev, r :: rs =>
    match durationOf now prev r.timestamp with
    | some d => (r.app_name, r.mode, d) :: processRows now (some r.timestamp) rs
    | none => processRows now (some r.timestamp) rs

/-- The row-fetch portion of `get_recent_sessions`: connect, try the
`focus_log` query, and on an `sqlite3.OperationalError` (the inner `except`
at controller.py line 253) fall back to the `focus_sessions` query.  Any
other exception, and any exception of the fallback query, propagates out of
this portion. -/
def query_rows (db : Db) : Except SqlErr (List Row) := do
  let _ ← db.connect
  match db.focus_log with
  | .ok rows => pure rows
  | .error e =>
    if e.isOperational then db.focus_sessions
    else .error e

/-- `FocusController.get_recent_sessions` (controller.py lines 208-294).
The whole body sits inside `try: ... except Exception: print(...)` (lines
220 and 290), and the accumulated `sessions` list — still empty at every
point where an exception can arise — is returned afterwards; hence the
result is always `.ok`.  An `.error` result would model an exception
propagating to the caller. -/
def get_recent_sessions (db : Db) (now : Int) :
    Except SqlErr (List (String × String × Int)) :=
  match query_rows db with
  | .ok rows => .ok (processRows now none rows)
  | .error _ => .ok []

/-- `Db` whose schema-A query fails with an exception that is not an
`OperationalError` at all (e.g. `sqlite3.DatabaseError: disk I/O error`). -/
def dbOtherFailure : Db :=
  { connect := .ok ()
    focus_log := .error (.other "disk I/O error")
    focus_sessions := .ok [] }

/-- `Db` whose schema-A query fails with an `OperationalError` that is not
of the "no such table" class (e.g. "database is locked"). -/
def dbLocked : Db :=
  { connect := .ok ()
    focus_log := .error (.operational false)
    focus_sessions := .ok [⟨"emacs", "productive", some 100⟩] }

/-- C1 counterexample: the claim fails in both directions on concrete
inputs.  (1) On `dbOtherFailure` the schema-A query fails with a
non-"missing table", non-operational error, yet `get_recent_sessions`
returns `.ok []` — the outer `except Exception` handler swallows the
failure instead of propagating it.  (2) On `dbLocked` the schema-A failure
is an `OperationalError` that is *not* of the "table does not exist" class,
yet the fallback to schema B happens anyway and its rows are returned. -/
theorem c1_counterexample :
    (dbOtherFailure.focus_log = .error (.other "disk I/O error") ∧
      (SqlErr.other "disk I/O error").isOperational = false ∧
      get_recent_sessions dbOtherFailure 0 = .ok []) ∧
    (dbLocked.focus_log = .error (.operational false) ∧
      get_recent_sessions dbLocked 120 = .ok [("emacs", "productive", 20)]) :=
  ⟨⟨rfl, rfl, rfl⟩, ⟨rfl, rfl⟩⟩

/-- C1 amended: the fallback from the `focus_log` query to the
`focus_sessions` query happens exactly on an `sqlite3.OperationalError`
(of any kind, not only "no such table"); every failure of any other class —
and every failure of the fallback query itself — is caught by the outer
handler, which logs it and returns the list accumulated so far (empty), so
no persistence failure ever propagates to the caller. -/
theorem c1_amended :
    (∀ (db : Db) (now : Int), ∃ s, get_recent_sessions db now = .ok s) ∧
    (∀ (db : Db) (e : SqlErr), db.connect = .ok () →
      db.focus_log = .error e →
      (e.isOperational = true → query_rows db = db.focus_sessions) ∧
      (e.isOperational = false → query_rows db = .error e ∧
        ∀ now, get_recent_sessions db now = .ok [])) ∧
    (∀ (db : Db) (rows : List Row), db.connect = .ok () →
      db.focus_log = .ok rows → query_rows db = .ok rows) := by
  refine ⟨?_, ?_, ?_⟩
  · intro db now
    unfold get_recent_sessions
    split
    · exact ⟨_, rfl⟩
    · exact ⟨_, rfl⟩
  · intro db e hc hq
    constructor
    · intro hop
      simp only [query_rows, hc, hq, hop, if_true]
      rfl
    · intro hop
      have h1 : query_rows db = .error e := by
        simp only [query_rows, hc, hq, hop, Bool.false_eq_true, if_false]
        rfl
      refine ⟨h1, fun now => ?_⟩
      simp [get_recent_sessions, h1]
  · intro db rows hc hq
    simp only [query_rows, hc, hq]
    rfl

theorem c1_amended_witness :
    query_rows dbLocked = dbLocked.focus_sessions ∧
    query_rows dbOtherFailure = .error (.other "disk I/O error") ∧
    get_recent_sessions dbOtherFailure 5 = .ok [] :=
  ⟨(c1_amended.2.1 dbLocked (SqlErr.operational false) rfl rfl).1 rfl,
   ((c1_amended.2.1 dbOtherFailure (SqlErr.other "disk I/O error") rfl rfl).2
      rfl).1,
   ((c1_amended.2.1 dbOtherFailure (SqlErr.other "disk I/O error") rfl rfl).2
      rfl).2 5⟩

/-- The spec's derived-duration view (spec.md section 3), written
independently of the code: for a timestamp-descending list the most recent
record gets `now − its time` and every other record gets
`time of the next-newer record − its own time`; no record is dropped.
(Stated for lists whose timestamps all parsed; `getD 0` is never the
default under that assumption.) -/
def specView (now : Int) : List Row → List (String × String × Int)
  | [] => []
  | r :: rs =>
    (r.app_name, r.mode, now - r.timestamp.getD 0) ::
      specView (r.timestamp.getD 0) rs

theorem durationOf_none_eq (now : Int) (ts : Option Int) :
    durationOf now none ts = durationOf now (some (some now)) ts := by
  cases ts <;> rfl

theorem processRows_none_eq (now : Int) (rows : List Row) :
    processRows now none rows = processRows now (some (some now)) rows := by
  cases rows with
  | nil => rfl
  | cons r rs =>
    show (match durationOf now none r.timestamp with
      | some d => (r.app_name, r.mode, d) ::
          processRows now (some r.timestamp) rs
      | none => processRows now (some r.timestamp) rs) = _
    rw [durationOf_none_eq]
    rfl

theorem processRows_eq_specView (now : Int) (rows : List Row) :
    ∀ u : Int, (∀ r ∈ rows, r.timestamp.isSome) →
      List.Chain' (fun a b => b.timestamp.getD 0 < a.timestamp.getD 0) rows →
      (∀ r, rows.head? = some r → r.timestamp.getD 0 < u) →
      processRows now (some (some u)) rows = specView u rows := by
  induction rows with
  | nil => intro u _ _ _; rfl
  | cons r rs ih =>
    intro u hp hchain hhead
    obtain ⟨t, ht⟩ := Option.isSome_iff_exists.mp (hp r (by simp))
    have hlt : t < u := by
      have := hhead r rfl
      rw [ht] at this
      simpa using this
    rw [List.chain'_cons'] at hchain
    have hstep : processRows now (some (some u)) (r :: rs) =
        (r.app_name, r.mode, u - t) :: processRows now (some (some t)) rs := by
      show (match durationOf now (some (some u)) r.timestamp with
        | some d => (r.app_name, r.mode, d) ::
            processRows now (some r.timestamp) rs
        | none => processRows now (some r.timestamp) rs) = _
      rw [ht]
      show (match (if 0 < u - t then some (u - t) else none) with
        | some d => (r.app_name, r.mode, d) ::
            processRows now (some (some t)) rs
        | none => processRows now (some (some t)) rs) = _
      rw [if_pos (by omega)]
    rw [hstep, ih t (fun x hx => hp x (by simp [hx]))
      hchain.2 (fun x hx => by
        have := hchain.1 x hx
        rw [ht] at this
        simpa using this)]
    simp [specView, ht]

/-- C3: when the schema-A query succeeds and returns rows whose timestamps
all parse and are strictly descending (as produced by
`ORDER BY timestamp DESC`), with `now` later than the newest timestamp,
`get_recent_sessions` returns exactly the spec's duration view: records
newest first, the most recent paired with `now − its time` and every other
record paired with `next-newer time − its own time`, each with its own
subject. -/
theorem c3_duration_view (db : Db) (now : Int) (rows : List Row)
    (hc : db.connect = .ok ()) (hq : db.focus_log = .ok rows)
    (hp : ∀ r ∈ rows, r.timestamp.isSome)
    (hdesc : List.Chain'
      (fun a b => b.timestamp.getD 0 < a.timestamp.getD 0) rows)
    (hnow : ∀ r, rows.head? = some r → r.timestamp.getD 0 < now) :
    get_recent_sessions db now = .ok (specView now rows) := by
  have hrows : query_rows db = .ok rows := by
    simp only [query_rows, hc, hq]
    rfl
  unfold get_recent_sessions
  rw [hrows]
  show Except.ok (processRows now none rows) = _
  rw [processRows_none_eq,
    processRows_eq_specView now rows now hp hdesc hnow]

/-- `Db` holding the spec's worked example: three records with timestamps
`T0 = 12:00, T1 = 12:05, T2 = 12:10` (in minutes: 720, 725, 730), returned
newest first by the SQL query. -/
def dbExample : Db :=
  { connect := .ok ()
    focus_log := .ok
      [⟨"C", "productive", some 730⟩,
       ⟨"B", "distracted", some 725⟩,
       ⟨"A", "neutral", some 720⟩]
    focus_sessions := .error (.operational true) }

theorem c3_duration_view_witness :
    get_recent_sessions dbExample 740 =
      .ok [("C", "productive", 10), ("B", "distracted", 5),
           ("A", "neutral", 5)] := by
  have h := c3_duration_view dbExample 740
    [⟨"C", "productive", some 730⟩,
     ⟨"B", "distracted", some 725⟩,
     ⟨"A", "neutral", some 720⟩]
    rfl rfl (by decide)
    (by simp [List.chain'_cons, List.Chain'])
    (by intro r hr; cases hr; decide)
  rw [h]
  rfl

theorem durationOf_pos {now : Int} {prev : Option (Option Int)} {t d : Int}
    (hprev : prev ≠ some none) (h : durationOf now prev (some t) = some d) :
    0 < d := by
  cases prev with
  | none =>
    by_cases hlt : 0 < now - t
    · rw [show durationOf now none (some t) =
          (if 0 < now - t then some (now - t) else none) from rfl,
        if_pos hlt] at h
      cases h
      exact hlt
    · rw [show durationOf now none (some t) =
          (if 0 < now - t then some (now - t) else none) from rfl,
        if_neg hlt] at h
      cases h
  | some op =>
    cases op with
    | none => exact absurd rfl hprev
    | some nt =>
      by_cases hlt : 0 < nt - t
      · rw [show durationOf now (some (some nt)) (some t) =
            (if 0 < nt - t then some (nt - t) else none) from rfl,
          if_pos hlt] at h
        cases h
        exact hlt
      · rw [show durationOf now (some (some nt)) (some t) =
            (if 0 < nt - t then some (nt - t) else none) from rfl,
          if_neg hlt] at h
        cases h

theorem processRows_all_pos (now : Int) (rows : List Row) :
    ∀ prev : Option (Option Int),
      (∀ r ∈ rows, r.timestamp.isSome) → prev ≠ some none →
      ∀ x ∈ processRows now prev rows, 0 < x.2.2 := by
  induction rows with
  | nil => intro prev _ _ x hx; cases hx
  | cons r rs ih =>
    intro prev hp hprev x hx
    obtain ⟨t, ht⟩ := Option.isSome_iff_exists.mp (hp r (by simp))
    have hnext : (some r.timestamp : Option (Option Int)) ≠ some none := by
      rw [ht]
      intro h
      cases h
    have hrs : ∀ r' ∈ rs, r'.timestamp.isSome :=
      fun r' hr' => hp r' (by simp [hr'])
    revert hx
    show x ∈ (match durationOf now prev r.timestamp with
      | some d => (r.app_name, r.mode, d) ::
          processRows now (some r.timestamp) rs
      | none => processRows now (some r.timestamp) rs) → 0 < x.2.2
    intro hx
    rcases hd : durationOf now prev r.timestamp with - | d
    · rw [hd] at hx
      exact ih (some r.timestamp) hrs hnext x hx
    · rw [hd] at hx
      rcases List.mem_cons.mp hx with hx | hx
      · subst hx
        rw [ht] at hd
        exact durationOf_pos hprev hd
      · exact ih (some r.timestamp) hrs hnext x hx

/-- C9: when the schema-A query succeeds and every timestamp parses, every
record whose computed duration is non-positive (duplicate or reversed
timestamps) is excluded from the returned list — every returned duration is
strictly positive — and the call still returns `.ok` (no error is raised). -/
theorem c9_nonpositive_excluded (db : Db) (now : Int) (rows : List Row)
    (hc : db.connect = .ok ()) (hq : db.focus_log = .ok rows)
    (hp : ∀ r ∈ rows, r.timestamp.isSome) :
    get_recent_sessions db now = .ok (processRows now none rows) ∧
    ∀ x ∈ processRows now none rows, 0 < x.2.2 := by
  have hrows : query_rows db = .ok rows := by
    simp only [query_rows, hc, hq]
    rfl
  constructor
  · unfold get_recent_sessions
    rw [hrows]
  · exact processRows_all_pos now rows none hp (fun h => by cases h)

/-- `Db` with records carrying a duplicate timestamp and a reversed
(out-of-order) timestamp: the rows with non-positive computed durations must
be dropped. -/
def dbDup : Db :=
  { connect := .ok ()
    focus_log := .ok
      [⟨"A", "productive", some 10⟩,
       ⟨"B", "distracted", some 10⟩,
       ⟨"C", "productive", some 30⟩]
    focus_sessions := .error (.operational true) }

theorem c9_nonpositive_excluded_witness :
    get_recent_sessions dbDup 12 = .ok [("A", "productive", 2)] := by
  have h := c9_nonpositive_excluded dbDup 12
    [⟨"A", "productive", some 10⟩,
     ⟨"B", "distracted", some 10⟩,
     ⟨"C", "productive", some 30⟩]
    rfl rfl (by decide)
  rw [h.1]
  rfl

/-! ## Classification lookup: `check_app_category`
(policy_engine.py lines 7-11) -/

/-- The relevant part of the YAML configuration consumed by
`check_app_category`. -/
structure PolicyConfig where
  productive_apps : List String
  distracting_apps : List String

/-- `check_app_category` (policy_engine.py lines 7-11). -/
def check_app_category (app_name : String) (config : PolicyConfig) :
    String :=
  if app_name ∈ config.productive_apps then "productive"
  else if app_name ∈ config.distracting_apps then "distracting"
  else "neutral"

/-- C8 counterexample: for an app configured in `distracting_apps` the
lookup returns the string `"distracting"`, which is not a member of the
claimed enum `{productive, distracted, neutral}`. -/
theorem c8_counterexample :
    check_app_category "youtube" ⟨[], ["youtube"]⟩ = "distracting" ∧
    check_app_category "youtube" ⟨[], ["youtube"]⟩ ∉
      (["productive", "distracted", "neutral"] : List String) := by
  constructor
  · rfl
  · decide

/-- C8 amended: for every subject and configuration the classification
lookup returns a value in the enum `{productive, distracting, neutral}`
(the code's spelling is `"distracting"`, not the spec's `"distracted"`). -/
theorem c8_category_enum (app_name : String) (config : PolicyConfig) :
    check_app_category app_name config ∈
      (["productive", "distracting", "neutral"] : List String) := by
  unfold check_app_category
  split
  · simp
  · split <;> simp

end AutoFocus
